import Mathlib

/-!
Verification of the `uni` module registry and configuration-driven
instantiation engine (repository yonomesh/uni), as a shallow embedding.

Go strings are modelled as Lean `String` and, where character-level work is
needed, through their `List Char` data.  Byte-wise lexicographic comparison of
UTF-8 strings coincides with code-point order, so a `List Char` order is a
faithful model of Go string comparison; the `"."` separator is a single ASCII
byte, so splitting at `'.'` characters models `strings.Split(s, ".")` and
`strings.LastIndex(s, ".")` exactly.

Functions that are pure in Go become Lean functions; the mutable state of one
configuration load (`Context`) is threaded explicitly through a `St` record.
Dynamic capability checks (type assertions against `Provisioner`, `Validator`,
`CleanerUpper`, `App`, `eventEmitter`) are modelled by optional behaviour data
on an `Instance`: a `none` field means the instance does not implement the
capability; `some r` means it does, and invoking it yields `r`.  Calls to the
opaque component callbacks are recorded in an event trace so that statements
such as "cleanup is invoked exactly once" can be made precise.
-/

namespace Uni

/-! ## Go string helpers (models of the strings package functions used) -/

/-- Model of `strings.Split(s, ".")` on the character list of `s`:
`splitOnDot []` is `[[]]` just as `strings.Split("", ".")` is `[""]`. -/
def splitOnDot : List Char → List (List Char)
  | [] => [[]]
  | c :: cs =>
    if c = '.' then [] :: splitOnDot cs
    else
      match splitOnDot cs with
      | [] => [[c]]
      | seg :: segs => (c :: seg) :: segs

/-- Model of `strings.LastIndex(s, ".")`: the index of the last `'.'`,
`none` when there is no dot (Go returns `-1`). -/
def lastDotIndex : List Char → Option Nat
  | [] => none
  | c :: cs =>
    match lastDotIndex cs with
    | some i => some (i + 1)
    | none => if c = '.' then some 0 else none

/-- Byte-wise (here: code-point-wise) `<` on strings, the order Go uses for
`mods[i].ID < mods[j].ID`. -/
def strLt : List Char → List Char → Bool
  | [], [] => false
  | [], _ :: _ => true
  | _ :: _, [] => false
  | c :: cs, d :: ds => if c < d then true else if d < c then false else strLt cs ds

/-! ## Identifier model (`ModuleID`, part_001 lines 92-113) -/

/-- `ModuleID` is a string that uniquely identifies a Uni module. -/
abbrev ModuleID := String

/-- `ModuleID.Namespace`: all but the last label of the ID; empty when the ID
has no dot.  Mirrors `strings.LastIndex` + prefix slice. -/
def ModuleID.Namespace (id : ModuleID) : String :=
  match lastDotIndex id.data with
  | none => ""
  | some i => String.mk (id.data.take i)

/-- `ModuleID.Name`: the last label of the ID; the whole ID when it has no
dot.  Mirrors `strings.LastIndex` + suffix slice. -/
def ModuleID.Name (id : ModuleID) : String :=
  match lastDotIndex id.data with
  | none => id
  | some i => String.mk (id.data.drop (i + 1))

/-! ## Instances and module information

An `Instance` is the observable behaviour of one constructed module value.
`provision`/`validate`/`cleanup` being `some r` models the value implementing
the corresponding capability interface with the call returning `r`
(`none` inside = nil error, `some e` inside = error `e`).  `fields` is the
set of JSON keys the value's type accepts when decoded. -/

structure Instance where
  tag : String
  fields : List String := []
  provision : Option (Option String) := none
  validate : Option (Option String) := none
  cleanup : Option (Option String) := none
  isApp : Bool := false
  isEventEmitter : Bool := false
deriving DecidableEq, Repr

/-- The value a registered constructor returns: the instance behaviour, whether
the Go value is a pointer (`ModuleInfo.New` SHOULD return one), and the
behaviour of a fresh zero value of the same type (what
`reflect.New(rv.Type()).Elem().Addr()` produces when `isPtr` is false). -/
structure ModVal where
  inst : Instance
  isPtr : Bool := true
  zeroVal : Instance := { tag := "" }
deriving DecidableEq, Repr

/-- `ModuleInfo` (part_001 lines 51-66).  `New = none` models a nil `New`
field; `New = some none` a constructor function returning a nil `Module`;
`New = some (some mv)` a constructor returning the value `mv`. -/
structure ModuleInfo where
  ID : ModuleID
  New : Option (Option ModVal) := none
deriving DecidableEq, Repr

/-- The global `modules` table, `map[string]ModuleInfo`, as an association
list in insertion order (one admissible iteration order of the Go map). -/
abbrev Registry := List (String × ModuleInfo)

/-- Lookup in the `modules` map: `modules[k]`. -/
def findMod : Registry → String → Option ModuleInfo
  | [], _ => none
  | (k2, mi) :: rest, k => if k2 = k then some mi else findMod rest k

/-! ## Registration and lookup (part_001 lines 138-170)

`RegisterModule` takes the `ModuleInfo` the registered value declares
(`instance.UniModule()` in Go).  A Go `panic` is modelled as `some msg` in the
first component; the second component is the table after the call — every
check in the source fires before the table write, so a panicking call leaves
the table exactly as it received it. -/

def RegisterModule (reg : Registry) (mi : ModuleInfo) : Option String × Registry :=
  if mi.ID = "" then (some "module ID missing", reg)
  else if mi.ID = "uni" || mi.ID = "admin" then
    (some ("module ID '" ++ mi.ID ++ "' is reserved"), reg)
  else
    match mi.New with
    | none => (some "missing ModuleInfo.New", reg)
    | some newFn =>
      match newFn with
      | none => (some "ModuleInfo.New must return a non-nil module instance", reg)
      | some _ =>
        if (findMod reg mi.ID).isSome then
          (some ("module already registered: " ++ mi.ID), reg)
        else (none, reg ++ [(mi.ID, mi)])

/-- `GetModule` (part_001 lines 162-170). -/
def GetModule (reg : Registry) (name : String) : Except String ModuleInfo :=
  match findMod reg name with
  | some m => Except.ok m
  | none => Except.error ("module not registered: " ++ name)

/-! ## `GetModules` (part_001 lines 181-219) -/

/-- The loop `for i := range scopeParts { modParts[i] != scopeParts[i] → skip }`:
every scope part must match the module part at the same position. -/
def leadEq : List (List Char) → List (List Char) → Bool
  | [], _ => true
  | _ :: _, [] => false
  | a :: xs, b :: ys => a = b && leadEq xs ys

/-- `scopeParts`: `strings.Split(scope, ".")`, with the special case that an
empty scope has no parts. -/
def scopeSplit (scope : String) : List (List Char) :=
  if scope = "" then [] else splitOnDot scope.data

/-- One registry entry's match test in the `GetModules` loop: the module id
has exactly one more label than the scope, and the scope's parts match. -/
def modMatches (scopeParts : List (List Char)) (id : String) : Bool :=
  let modParts := splitOnDot id.data
  modParts.length = scopeParts.length + 1 && leadEq scopeParts modParts

/-- Insertion step of the final `sort.Slice` by ascending ID. -/
def insertByID (x : ModuleInfo) : List ModuleInfo → List ModuleInfo
  | [] => [x]
  | y :: ys => if strLt y.ID.data x.ID.data then y :: insertByID x ys else x :: y :: ys

/-- The final `sort.Slice(mods, mods[i].ID < mods[j].ID)`. -/
def sortByID : List ModuleInfo → List ModuleInfo
  | [] => []
  | x :: xs => insertByID x (sortByID xs)

/-- `GetModules` (part_001 lines 181-219): filter the registry by scope match
on the map key, then sort by ID for determinism. -/
def GetModules (reg : Registry) (scope : String) : List ModuleInfo :=
  let scopeParts := scopeSplit scope
  sortByID ((reg.filter fun p => modMatches scopeParts p.1).map fun p => p.2)

/-! ## Raw configuration fragments and decoding

`RawMsg` models one `json.RawMessage`: zero-length, the literal `null`, a JSON
object (fields in textual order, values abstracted to "a string" or "not a
string"), or malformed text. -/

inductive JVal
  | str (s : String)
  | nonString
deriving DecidableEq, Repr

inductive RawMsg
  | empty
  | null
  | obj (fields : List (String × JVal))
  | invalid (e : String)
deriving DecidableEq, Repr

inductive DecodeOut
  | ok
  | toNil
  | fail (e : String)
deriving DecidableEq, Repr

/-- Modelled from the spec: `StrictUnmarshalJSON` is declared only through its
tests in this repository.  Per the spec, strict decoding rejects unknown
properties and reports malformed input; decoding the literal `null` into the
`&val` interface pointer sets the module value to nil (`toNil`).  Type
mismatches inside known fields are not distinguished here (no claim needs
them); a field whose key is outside the target's schema is the modelled
strict-decode failure. -/
def StrictUnmarshalJSON (schema : List String) (raw : RawMsg) : DecodeOut :=
  match raw with
  | .empty => .fail "unexpected end of JSON input"
  | .null => .toNil
  | .invalid e => .fail e
  | .obj fields =>
    match fields.find? fun p => !(schema.contains p.1) with
    | some p => .fail ("json: unknown field " ++ p.1)
    | none => .ok

/-- Modelled from the spec: `getModuleNameInline` exists in this repository
only through its tests.  Per the spec (§4.4), it parses the raw message as an
object, requires the designated key to be present and to hold a non-empty
string, and returns that name together with the object minus that one key. -/
def getModuleNameInline (key : String) (raw : RawMsg) :
    Except String (String × RawMsg) :=
  match raw with
  | .empty => Except.error "unexpected end of JSON input"
  | .invalid e => Except.error e
  | .null => Except.error ("module name key missing: " ++ key)
  | .obj fields =>
    match fields.lookup key with
    | none => Except.error ("module name key missing: " ++ key)
    | some JVal.nonString => Except.error ("module name key not a string: " ++ key)
    | some (JVal.str s) =>
      if s = "" then Except.error "module name is empty"
      else Except.ok (s, .obj (fields.filter fun p => p.1 ≠ key))

/-! ## Context state and the event trace -/

/-- Trace events: one per call into an opaque component callback. -/
inductive Ev
  | provisionCall (tag : String)
  | validateCall (tag : String)
  | cleanupCall (tag : String)
  | cleanupFuncCall (tag : String)
deriving DecidableEq, Repr

/-- The mutable state reachable from a `Context` during one load:
`moduleInstances` and `ancestry` from the Context itself, `apps`,
`failedApps` and `eventEmitter` from the enclosing `Config`, plus two
instrumentation records: `trace`, the calls made into opaque component
callbacks, and `loads`, the fully qualified module id of each entry into
`LoadModuleByID`, in call order.  Association lists are in insertion order (one
admissible iteration order of the corresponding Go maps). -/
structure St where
  moduleInstances : List (String × List Instance) := []
  ancestry : List Instance := []
  apps : List (String × Instance) := []
  failedApps : List (String × String) := []
  eventEmitter : Option Instance := none
  trace : List Ev := []
  loads : List String := []
deriving DecidableEq, Repr

def St.empty : St := {}

/-- `ctx.moduleInstances[id] = append(ctx.moduleInstances[id], val)`. -/
def addInstance : List (String × List Instance) → String → Instance →
    List (String × List Instance)
  | [], k, v => [(k, [v])]
  | (k2, vs) :: rest, k, v =>
    if k2 = k then (k2, vs ++ [v]) :: rest else (k2, vs) :: addInstance rest k v

/-- Plain map write `m[k] = v` on an association list. -/
def setAssoc {α : Type} : List (String × α) → String → α → List (String × α)
  | [], k, v => [(k, v)]
  | (k2, v2) :: rest, k, v =>
    if k2 = k then (k2, v) :: rest else (k2, v2) :: setAssoc rest k v

/-- Outcome of an engine call: a value, a returned error, or a Go panic. -/
inductive ROut (α : Type)
  | ok (v : α)
  | err (e : String)
  | panicked (msg : String)
deriving DecidableEq, Repr

/-- The value `LoadModuleByID` works with after the pointer check: the
constructor's value if it is a pointer, otherwise the synthesized fresh
zero instance (context.go lines 344-359). -/
def constructedVal (mv : ModVal) : Instance :=
  if mv.isPtr then mv.inst else mv.zeroVal

/-- The rollback step shared by the provision and validate failure paths
(context.go lines 403-408 and 417-422): if the value is a `CleanerUpper`,
call `Cleanup` once; a cleanup error is appended to the original error. -/
def cleanupOnFail (v : Instance) (e : String) (st : St) : String × St :=
  match v.cleanup with
  | none => (e, st)
  | some r =>
    let st2 : St := { st with trace := st.trace ++ [Ev.cleanupCall v.tag] }
    match r with
    | none => (e, st2)
    | some e2 => (e ++ "; additionally, cleanup: " ++ e2, st2)

/-- Success tail of `LoadModuleByID` (context.go lines 427-437): record the
instance in `moduleInstances`, and store it as the configuration's event
emitter when it is both an `eventEmitter` and an `App`. -/
def recordLoad (id : String) (val : Instance) (st : St) : ROut Instance × St :=
  let st2 : St := { st with moduleInstances := addInstance st.moduleInstances id val }
  let st3 : St :=
    if val.isEventEmitter && val.isApp then { st2 with eventEmitter := some val } else st2
  (.ok val, st3)

/-- Validation step of `LoadModuleByID` (context.go lines 413-425), reached
after provisioning succeeded.  On failure the deferred handler records the
(unwrapped) error in `failedApps` when the value is an `App`. -/
def validateStep (modInfo : ModuleInfo) (id : String) (val : Instance) (st : St) :
    ROut Instance × St :=
  match val.validate with
  | none => recordLoad id val st
  | some vr =>
    let st2 : St := { st with trace := st.trace ++ [Ev.validateCall val.tag] }
    match vr with
    | none => recordLoad id val st2
    | some e =>
      let p := cleanupOnFail val e st2
      let st3 : St :=
        if val.isApp then { p.2 with failedApps := setAssoc p.2.failedApps id p.1 } else p.2
      (.err (modInfo.ID ++ ": invalid configuration: " ++ p.1), st3)

/-- `Context.LoadModuleByID` (context.go lines 322-438).  The id is looked up
in the registry; the constructor runs and the value is normalized to a
pointer; non-empty raw config is strictly decoded; a nil value is rejected;
an `App` is registered in the configuration's app table before provisioning;
the value joins the ancestry; provision and validate run with
cleanup-on-failure; on success the instance is recorded. -/
def LoadModuleByID (reg : Registry) (id : String) (raw : RawMsg) (st0 : St) :
    ROut Instance × St :=
  let st : St := { st0 with loads := st0.loads ++ [id] }
  match findMod reg id with
  | none => (.err ("unknown module: " ++ id), st)
  | some modInfo =>
    match modInfo.New with
    | none => (.err ("module '" ++ modInfo.ID ++ "' has no constructor"), st)
    | some newFn =>
      match newFn with
      | none =>
        -- `reflect.ValueOf(nil).Type()` in the pointer-normalization step
        (.panicked "reflect: call of reflect.Value.Type on zero Value", st)
      | some mv =>
        let v := constructedVal mv
        let decoded : Except String (Option Instance) :=
          if raw = .empty then Except.ok (some v)
          else
            match StrictUnmarshalJSON v.fields raw with
            | .fail e => Except.error ("decoding module config: " ++ modInfo.ID ++ ": " ++ e)
            | .toNil => Except.ok none
            | .ok => Except.ok (some v)
        match decoded with
        | Except.error e => (.err e, st)
        | Except.ok none => (.err "module value cannot be null", st)
        | Except.ok (some val) =>
          let st2 : St :=
            if val.isApp then { st with apps := setAssoc st.apps id val } else st
          let st3 : St := { st2 with ancestry := st2.ancestry ++ [val] }
          match val.provision with
          | none => validateStep modInfo id val st3
          | some pr =>
            let st4 : St := { st3 with trace := st3.trace ++ [Ev.provisionCall val.tag] }
            match pr with
            | none => validateStep modInfo id val st4
            | some e =>
              let p := cleanupOnFail val e st4
              let st5 : St :=
                if val.isApp then { p.2 with failedApps := setAssoc p.2.failedApps id p.1 }
                else p.2
              (.err ("provision " ++ modInfo.ID ++ ": " ++ p.1), st5)

/-! ## Cancellation cascade (`NewContext`, context.go lines 60-91)

`wrappedCancel` first runs the cleanup callbacks of the parent context that
was passed to `NewContext` (modelled by their tags, in registration order),
then ranges over the child's `moduleInstances` map — in the association
list's order, one admissible iteration order of the Go map — and calls
`Cleanup` on every instance that implements `CleanerUpper`.  A failing
cleanup is logged and the loop continues; the returned event list is the
sequence of calls the cascade makes. -/

def cancelRow : List Instance → List Ev
  | [] => []
  | i :: rest =>
    match i.cleanup with
    | some _ => Ev.cleanupCall i.tag :: cancelRow rest
    | none => cancelRow rest

def cancelInstances : List (String × List Instance) → List Ev
  | [] => []
  | (_, insts) :: rest => cancelRow insts ++ cancelInstances rest

def wrappedCancel (parentCleanupFuncs : List String)
    (childInstances : List (String × List Instance)) : List Ev :=
  parentCleanupFuncs.map Ev.cleanupFuncCall ++ cancelInstances childInstances

/-! ## The configuration resolver (`Context.LoadModule` and helpers) -/

/-- `Context.loadModuleInline` (context.go lines 451-463). -/
def loadModuleInline (reg : Registry) (moduleInlineKey moduleNamespace : String)
    (raw : RawMsg) (st : St) : ROut Instance × St :=
  match getModuleNameInline moduleInlineKey raw with
  | Except.error e => (.err e, st)
  | Except.ok (moduleName, raw2) =>
    match LoadModuleByID reg (moduleNamespace ++ "." ++ moduleName) raw2 st with
    | (.ok v, st2) => (.ok v, st2)
    | (.err e, st2) => (.err ("loading module '" ++ moduleName ++ "': " ++ e), st2)
    | (.panicked m, st2) => (.panicked m, st2)

/-- The `[]json.RawMessage` loop of `LoadModule` (context.go lines 252-259),
also used per row for `[][]json.RawMessage`: load each element inline,
wrapping a failure with the element's index `i`. -/
def loadInlineSeq (reg : Registry) (ik ns : String) :
    Nat → List RawMsg → St → ROut (List Instance) × St
  | _, [], st => (.ok [], st)
  | i, r :: rest, st =>
    match loadModuleInline reg ik ns r st with
    | (.err e, st2) => (.err ("position " ++ toString i ++ ": " ++ e), st2)
    | (.panicked m, st2) => (.panicked m, st2)
    | (.ok v, st2) =>
      match loadInlineSeq reg ik ns (i + 1) rest st2 with
      | (.ok vs, st3) => (.ok (v :: vs), st3)
      | (.err e, st3) => (.err e, st3)
      | (.panicked m, st3) => (.panicked m, st3)

/-- The `[][]json.RawMessage` outer loop of `LoadModule` (context.go lines
267-279): each inner row restarts its index `j` at 0; a row's error is
returned unchanged (the outer index `i` adds no wrapping). -/
def loadSeqSeq (reg : Registry) (ik ns : String) :
    List (List RawMsg) → St → ROut (List (List Instance)) × St
  | [], st => (.ok [], st)
  | row :: rest, st =>
    match loadInlineSeq reg ik ns 0 row st with
    | (.err e, st2) => (.err e, st2)
    | (.panicked m, st2) => (.panicked m, st2)
    | (.ok vs, st2) =>
      match loadSeqSeq reg ik ns rest st2 with
      | (.ok vss, st3) => (.ok (vs :: vss), st3)
      | (.err e, st3) => (.err e, st3)
      | (.panicked m, st3) => (.panicked m, st3)

/-- `Context.loadModuleMap` (context.go lines 503-520): the map key is the
module name, namespace-qualified unless the namespace is empty. -/
def loadModuleMap (reg : Registry) (ns : String) :
    List (String × RawMsg) → St → ROut (List (String × Instance)) × St
  | [], st => (.ok [], st)
  | (k, v) :: rest, st =>
    let moduleName := if ns = "" then k else ns ++ "." ++ k
    match LoadModuleByID reg moduleName v st with
    | (.err e, st2) => (.err ("module name '" ++ k ++ "': " ++ e), st2)
    | (.panicked m, st2) => (.panicked m, st2)
    | (.ok val, st2) =>
      match loadModuleMap reg ns rest st2 with
      | (.ok all, st3) => (.ok ((k, val) :: all), st3)
      | (.err e, st3) => (.err e, st3)
      | (.panicked m, st3) => (.panicked m, st3)

/-- `Context.loadModulesFromRegularMap` (context.go lines 486-499): map keys
are opaque; names come from inside each value via the inline key. -/
def loadModulesFromRegularMap (reg : Registry) (ns ik : String) :
    List (String × RawMsg) → St → ROut (List (String × Instance)) × St
  | [], st => (.ok [], st)
  | (k, v) :: rest, st =>
    match loadModuleInline reg ik ns v st with
    | (.err e, st2) => (.err ("key " ++ k ++ ": " ++ e), st2)
    | (.panicked m, st2) => (.panicked m, st2)
    | (.ok mod, st2) =>
      match loadModulesFromRegularMap reg ns ik rest st2 with
      | (.ok mods, st3) => (.ok ((k, mod) :: mods), st3)
      | (.err e, st3) => (.err e, st3)
      | (.panicked m, st3) => (.panicked m, st3)

/-- A map-kinded field: either a proper module map (`map[string]json.RawMessage`,
entries in one admissible iteration order) or a map of some other type. -/
inductive MapShape
  | moduleMap (entries : List (String × RawMsg))
  | otherMap (ty : String)
deriving DecidableEq, Repr

/-- `Context.loadModulesFromSomeMap` (context.go lines 468-481).  With no
inline key the value must be a module map (else panic); with an inline key
it is read as a regular map.  Iterating a non-module map with an inline key
would fail the `json.RawMessage` type assertion on its first value; that Go
panic is modelled here directly (an empty such map would iterate nothing,
a case no claim touches). -/
def loadModulesFromSomeMap (reg : Registry) (ns ik : String) (m : MapShape)
    (st : St) : ROut (List (String × Instance)) × St :=
  if ik = "" then
    match m with
    | .moduleMap entries => loadModuleMap reg ns entries st
    | .otherMap ty =>
      (.panicked ("expected ModuleMap because inline_key is empty; but we do not recognize this type: " ++ ty), st)
  else
    match m with
    | .moduleMap entries => loadModulesFromRegularMap reg ns ik entries st
    | .otherMap ty =>
      (.panicked ("interface conversion: interface is " ++ ty ++ ", not json.RawMessage"), st)

/-- The `[]map[string]json.RawMessage` loop (context.go lines 284-291): load
each element's map; element errors are returned unchanged (no index). -/
def loadSeqOfMaps (reg : Registry) (ns ik : String) :
    List (List (String × RawMsg)) → St → ROut (List (List (String × Instance))) × St
  | [], st => (.ok [], st)
  | entries :: rest, st =>
    match loadModulesFromSomeMap reg ns ik (.moduleMap entries) st with
    | (.err e, st2) => (.err e, st2)
    | (.panicked m, st2) => (.panicked m, st2)
    | (.ok thisSet, st2) =>
      match loadSeqOfMaps reg ns ik rest st2 with
      | (.ok all, st3) => (.ok (thisSet :: all), st3)
      | (.err e, st3) => (.err e, st3)
      | (.panicked m, st3) => (.panicked m, st3)

/-- The shape of the struct field `LoadModule` dispatches on, a tagged variant
of `reflect.Value.Kind()` plus the element-type tests: `json.RawMessage`,
`[]json.RawMessage`, `[][]json.RawMessage`, `[]map[string]json.RawMessage`,
any other slice type, any map type, and any non-slice non-map kind. -/
inductive FieldVal
  | raw (m : RawMsg)
  | seqRaw (ms : List RawMsg)
  | seqSeqRaw (rows : List (List RawMsg))
  | seqMap (ms : List (List (String × RawMsg)))
  | sliceOther (ty : String)
  | mapField (m : MapShape)
  | nonSliceNonMap (ty : String)
deriving DecidableEq, Repr

/-- The resolver's result value, mirroring the Go return shapes
(`any`, `[]any`, `[][]any`, `map[string]any`, `[]map[string]any`);
`nilResult` is the untouched `var result any` (Go `nil`). -/
inductive LoadResult
  | nilResult
  | one (v : Instance)
  | seq (vs : List Instance)
  | seqSeq (vss : List (List Instance))
  | mapRes (vs : List (String × Instance))
  | seqMapRes (vss : List (List (String × Instance)))
deriving DecidableEq, Repr

/-- `Context.LoadModule` (context.go lines 215-310), embedded from the shape
dispatch onward: the struct-tag parsing (`ParseStructTag`, absent from the
repository's files) has already produced `ns` and `ik` (`ik = ""` models a
tag without `inline_key`).  A slice whose element type matches none of the
recognized shapes leaves `result` unset and returns it with a nil error;
only the non-slice, non-map default arm produces the "unrecognized type"
error.  The zeroing of the host's field after success is outside this model
(the host struct is not part of the state). -/
def LoadModule (reg : Registry) (ns ik : String) (fv : FieldVal) (st : St) :
    ROut LoadResult × St :=
  match fv with
  | .raw m =>
    if ik = "" then
      (.panicked "unable to determine module name without inline_key when type is not a ModuleMap", st)
    else
      match loadModuleInline reg ik ns m st with
      | (.ok v, st2) => (.ok (.one v), st2)
      | (.err e, st2) => (.err e, st2)
      | (.panicked m2, st2) => (.panicked m2, st2)
  | .seqRaw ms =>
    if ik = "" then
      (.panicked "unable to determine module name without inline_key because type is not a ModuleMap", st)
    else
      match loadInlineSeq reg ik ns 0 ms st with
      | (.ok vs, st2) => (.ok (.seq vs), st2)
      | (.err e, st2) => (.err e, st2)
      | (.panicked m2, st2) => (.panicked m2, st2)
  | .seqSeqRaw rows =>
    if ik = "" then
      (.panicked "unable to determine module name without inline_key because type is not a ModuleMap", st)
    else
      match loadSeqSeq reg ik ns rows st with
      | (.ok vss, st2) => (.ok (.seqSeq vss), st2)
      | (.err e, st2) => (.err e, st2)
      | (.panicked m2, st2) => (.panicked m2, st2)
  | .seqMap ms =>
    match loadSeqOfMaps reg ns ik ms st with
    | (.ok all, st2) => (.ok (.seqMapRes all), st2)
    | (.err e, st2) => (.err e, st2)
    | (.panicked m2, st2) => (.panicked m2, st2)
  | .sliceOther _ => (.ok .nilResult, st)
  | .mapField m =>
    match loadModulesFromSomeMap reg ns ik m st with
    | (.ok vs, st2) => (.ok (.mapRes vs), st2)
    | (.err e, st2) => (.err e, st2)
    | (.panicked m2, st2) => (.panicked m2, st2)
  | .nonSliceNonMap ty => (.err ("unrecognized type for module: " ++ ty), st)

/-! ## Lemmas about the identifier model -/

theorem lastDot_split : ∀ (l : List Char) (i : Nat), lastDotIndex l = some i →
    l.take i ++ '.' :: l.drop (i + 1) = l := by
  intro l
  induction l with
  | nil => intro i h; simp [lastDotIndex] at h
  | cons c cs ih =>
    intro i h
    unfold lastDotIndex at h
    cases hcs : lastDotIndex cs with
    | some j =>
      rw [hcs] at h
      simp only [Option.some.injEq] at h
      subst h
      simpa using ih j hcs
    | none =>
      rw [hcs] at h
      by_cases hc : c = '.'
      · rw [if_pos hc] at h
        cases h
        simp [hc]
      · rw [if_neg hc] at h
        cases h

theorem lastDot_none : ∀ l : List Char, lastDotIndex l = none ↔ '.' ∉ l := by
  intro l
  induction l with
  | nil => simp [lastDotIndex]
  | cons c cs ih =>
    unfold lastDotIndex
    cases hcs : lastDotIndex cs with
    | some j =>
      have hmem : '.' ∈ cs := by
        by_contra hmem
        rw [ih.mpr hmem] at hcs
        cases hcs
      simp [hmem]
    | none =>
      have hmem : '.' ∉ cs := ih.mp hcs
      by_cases hc : c = '.'
      · simp [hc]
      · constructor
        · intro _ hx
          rcases List.mem_cons.mp hx with h1 | h2
          · exact hc h1.symm
          · exact hmem h2
        · intro _
          rw [if_neg hc]

/-- C9: For every `ModuleID` containing at least one dot, `Namespace() + "." +
Name()` reconstructs the identifier exactly; for every `ModuleID` with no dot,
`Namespace()` is empty and `Name()` is the whole identifier. -/
theorem namespace_name_roundtrip :
    (∀ id : ModuleID, '.' ∈ id.data →
      ModuleID.Namespace id ++ "." ++ ModuleID.Name id = id) ∧
    (∀ id : ModuleID, '.' ∉ id.data →
      ModuleID.Namespace id = "" ∧ ModuleID.Name id = id) := by
  constructor
  · intro id h
    cases hl : lastDotIndex id.data with
    | none => exact absurd ((lastDot_none id.data).mp hl) (by simp [h])
    | some i =>
      unfold ModuleID.Namespace ModuleID.Name
      rw [hl]
      apply String.ext
      simp only [String.data_append]
      have := lastDot_split id.data i hl
      simpa using this
  · intro id h
    have hl : lastDotIndex id.data = none := (lastDot_none id.data).mpr h
    unfold ModuleID.Namespace ModuleID.Name
    rw [hl]
    exact ⟨rfl, rfl⟩

theorem namespace_name_roundtrip_witness :
    (ModuleID.Namespace "a.b.c" ++ "." ++ ModuleID.Name "a.b.c" = "a.b.c") ∧
    (ModuleID.Namespace "top" = "" ∧ ModuleID.Name "top" = "top") :=
  ⟨namespace_name_roundtrip.1 "a.b.c" (by decide),
   namespace_name_roundtrip.2 "top" (by decide)⟩

/-! ## Registration theorems -/

/-- C10: whenever `RegisterModule` rejects a registration (any panic path),
the table it returns is exactly the table it received. -/
theorem failed_registration_leaves_table :
    ∀ (reg : Registry) (mi : ModuleInfo) (msg : String),
      (RegisterModule reg mi).1 = some msg → (RegisterModule reg mi).2 = reg := by
  intro reg mi msg
  unfold RegisterModule
  split
  · intro _; rfl
  · split
    · intro _; rfl
    · split
      · intro _; rfl
      · split
        · intro _; rfl
        · split
          · intro _; rfl
          · intro h; simp at h

theorem failed_registration_leaves_table_witness :
    (RegisterModule [] { ID := "" } : Option String × Registry).2 = [] :=
  failed_registration_leaves_table [] { ID := "" } "module ID missing" (by decide)

theorem findMod_append_self :
    ∀ (reg : Registry) (k : String) (mi : ModuleInfo),
      findMod reg k = none → findMod (reg ++ [(k, mi)]) k = some mi := by
  intro reg k mi
  induction reg with
  | nil => intro _; simp [findMod]
  | cons p rest ih =>
    obtain ⟨k2, m2⟩ := p
    intro h
    rw [List.cons_append]
    unfold findMod at h ⊢
    by_cases hk : k2 = k
    · rw [if_pos hk] at h; cases h
    · rw [if_neg hk] at h ⊢
      exact ih h

/-- C4: For every valid, non-reserved, not-yet-registered identifier with a
well-formed constructor, `RegisterModule` then `GetModule` returns the same
registration entry; `GetModule` on an identifier that was never registered
returns the "module not registered" error. -/
theorem register_then_lookup :
    (∀ (reg : Registry) (mi : ModuleInfo) (mv : ModVal),
      mi.ID ≠ "" → mi.ID ≠ "uni" → mi.ID ≠ "admin" →
      mi.New = some (some mv) → findMod reg mi.ID = none →
      (RegisterModule reg mi).1 = none ∧
      GetModule (RegisterModule reg mi).2 mi.ID = Except.ok mi) ∧
    (∀ (reg : Registry) (name : String), findMod reg name = none →
      GetModule reg name = Except.error ("module not registered: " ++ name)) := by
  constructor
  · intro reg mi mv h1 h2 h3 h4 h5
    have hreg : RegisterModule reg mi = (none, reg ++ [(mi.ID, mi)]) := by
      unfold RegisterModule
      rw [h4]
      simp [h1, h2, h3, h5]
    rw [hreg]
    refine ⟨rfl, ?_⟩
    unfold GetModule
    rw [findMod_append_self reg mi.ID mi h5]
  · intro reg name h
    unfold GetModule
    rw [h]

theorem register_then_lookup_witness :
    ((RegisterModule [] { ID := "x.y", New := some (some { inst := { tag := "w" } }) }).1 = none ∧
     GetModule (RegisterModule [] { ID := "x.y", New := some (some { inst := { tag := "w" } }) }).2
       "x.y" = Except.ok { ID := "x.y", New := some (some { inst := { tag := "w" } }) }) ∧
    GetModule [] "nope" = Except.error ("module not registered: " ++ "nope") :=
  ⟨register_then_lookup.1 [] _ _ (by decide) (by decide) (by decide) rfl (by decide),
   register_then_lookup.2 [] "nope" (by decide)⟩

/-- C5: registering an identifier that is already present always panics with
"module already registered", for every supplied constructor — equal to or
different from the registered one — and leaves the table unchanged. -/
theorem duplicate_registration_panics :
    ∀ (reg : Registry) (mi : ModuleInfo) (mv : ModVal),
      mi.ID ≠ "" → mi.ID ≠ "uni" → mi.ID ≠ "admin" →
      mi.New = some (some mv) → (findMod reg mi.ID).isSome →
      RegisterModule reg mi = (some ("module already registered: " ++ mi.ID), reg) := by
  intro reg mi mv h1 h2 h3 h4 h5
  unfold RegisterModule
  rw [h4]
  simp [h1, h2, h3, h5]

/-! ## `GetModules`: scope filtering and sorting (C1) -/

theorem strLt_asymm : ∀ a b : List Char, strLt a b = true → strLt b a = false := by
  intro a
  induction a with
  | nil =>
    intro b h
    cases b with
    | nil => simp [strLt] at h
    | cons d ds => simp [strLt]
  | cons c cs ih =>
    intro b h
    cases b with
    | nil => simp [strLt] at h
    | cons d ds =>
      unfold strLt at h ⊢
      by_cases h1 : c < d
      · rw [if_neg (lt_asymm h1), if_pos h1]
      · rw [if_neg h1] at h
        by_cases h2 : d < c
        · rw [if_pos h2] at h; cases h
        · rw [if_neg h2] at h
          rw [if_neg h2, if_neg h1]
          exact ih ds h

theorem strLt_ge_trans :
    ∀ a b c : List Char, strLt a b = false → strLt b c = false → strLt a c = false := by
  intro a
  induction a with
  | nil =>
    intro b c hab hbc
    cases b with
    | nil =>
      cases c with
      | nil => rfl
      | cons z zs => simp [strLt] at hbc
    | cons y ys => simp [strLt] at hab
  | cons x xs ih =>
    intro b c hab hbc
    cases b with
    | nil =>
      cases c with
      | nil => simp [strLt]
      | cons z zs => simp [strLt] at hbc
    | cons y ys =>
      cases c with
      | nil => simp [strLt]
      | cons z zs =>
        unfold strLt at hab hbc ⊢
        by_cases h1 : x < y
        · rw [if_pos h1] at hab; cases hab
        · rw [if_neg h1] at hab
          by_cases h2 : y < z
          · rw [if_pos h2] at hbc; cases hbc
          · rw [if_neg h2] at hbc
            have hyx : y ≤ x := not_lt.mp h1
            have hzy : z ≤ y := not_lt.mp h2
            have hxz : ¬ x < z := not_lt.mpr (le_trans hzy hyx)
            rw [if_neg hxz]
            by_cases h3 : z < x
            · rw [if_pos h3]
            · rw [if_neg h3]
              have hxeqz : x = z := le_antisymm (not_lt.mp h3) (le_trans hzy hyx)
              have hxy : x ≤ y := by rw [hxeqz]; exact hzy
              have hyeqx : y = x := le_antisymm hyx hxy
              have hylt : ¬ y < x := by rw [hyeqx]; exact lt_irrefl x
              have hzlt : ¬ z < y := by rw [hyeqx, ← hxeqz]; exact lt_irrefl x
              rw [if_neg hylt] at hab
              rw [if_neg hzlt] at hbc
              exact ih ys zs hab hbc

theorem perm_insertByID (x : ModuleInfo) :
    ∀ l : List ModuleInfo, (insertByID x l).Perm (x :: l) := by
  intro l
  induction l with
  | nil => simp [insertByID]
  | cons y ys ih =>
    unfold insertByID
    by_cases hlt : strLt y.ID.data x.ID.data
    · rw [if_pos hlt]
      exact (ih.cons y).trans (List.Perm.swap x y ys)
    · rw [if_neg hlt]

theorem pairwise_insertByID (x : ModuleInfo) :
    ∀ l : List ModuleInfo,
      (l.Pairwise fun a b => strLt b.ID.data a.ID.data = false) →
      ((insertByID x l).Pairwise fun a b => strLt b.ID.data a.ID.data = false) := by
  intro l
  induction l with
  | nil => intro _; simp [insertByID]
  | cons y ys ih =>
    intro h
    rw [List.pairwise_cons] at h
    obtain ⟨hy, hys⟩ := h
    unfold insertByID
    by_cases hlt : strLt y.ID.data x.ID.data
    · rw [if_pos hlt]
      rw [List.pairwise_cons]
      refine ⟨?_, ih hys⟩
      intro z hz
      rcases List.mem_cons.mp ((perm_insertByID x ys).mem_iff.mp hz) with hzx | hzys
      · rw [hzx]; exact strLt_asymm _ _ hlt
      · exact hy z hzys
    · rw [if_neg hlt]
      rw [List.pairwise_cons]
      refine ⟨?_, List.pairwise_cons.mpr ⟨hy, hys⟩⟩
      intro z hz
      rcases List.mem_cons.mp hz with hzy | hzys
      · rw [hzy]
        exact Bool.eq_false_iff.mpr hlt
      · exact strLt_ge_trans _ _ _ (hy z hzys) (Bool.eq_false_iff.mpr hlt)

theorem sortByID_perm : ∀ l : List ModuleInfo, (sortByID l).Perm l := by
  intro l
  induction l with
  | nil => simp [sortByID]
  | cons x xs ih =>
    unfold sortByID
    exact (perm_insertByID x (sortByID xs)).trans (ih.cons x)

theorem pairwise_sortByID : ∀ l : List ModuleInfo,
    (sortByID l).Pairwise fun a b => strLt b.ID.data a.ID.data = false := by
  intro l
  induction l with
  | nil => simp [sortByID]
  | cons x xs ih => exact pairwise_insertByID x _ ih

/-- The labels of an identifier, as the claim reads them: the dot-separated
pieces of the string. -/
abbrev labels (s : String) : List (List Char) := splitOnDot s.data

/-- The labels of a scope: a scope is a (possibly empty) dot-separated list,
and the empty scope has no labels (its example: scope `""` matches exactly
the single-label identifiers). -/
abbrev scopeLabelsSpec (s : String) : List (List Char) := if s = "" then [] else labels s

/-- The claim's membership condition for `listByScope`: the identifier has
exactly one more label than the scope, and its leading labels are exactly
the scope's labels. -/
abbrev specScopeMatch (scope id : String) : Prop :=
  (labels id).length = (scopeLabelsSpec scope).length + 1 ∧
  (labels id).take (scopeLabelsSpec scope).length = scopeLabelsSpec scope

theorem leadEq_take : ∀ xs ys : List (List Char),
    leadEq xs ys = true ↔ ys.take xs.length = xs := by
  intro xs
  induction xs with
  | nil => intro ys; simp [leadEq]
  | cons a l ih =>
    intro ys
    cases ys with
    | nil => simp [leadEq]
    | cons b m =>
      show (decide (a = b) && leadEq l m) = true ↔ b :: m.take l.length = a :: l
      rw [Bool.and_eq_true, decide_eq_true_eq]
      constructor
      · intro ⟨h1, h2⟩
        rw [h1, (ih m).mp h2]
      · intro h
        have h1 : b = a := (List.cons.injEq _ _ _ _ ▸ h).1
        have h2 : m.take l.length = l := (List.cons.injEq _ _ _ _ ▸ h).2
        exact ⟨h1.symm, (ih m).mpr h2⟩

theorem modMatches_iff : ∀ scope id : String,
    modMatches (scopeSplit scope) id = true ↔ specScopeMatch scope id := by
  intro scope id
  have hsc : scopeSplit scope = scopeLabelsSpec scope := rfl
  show ((splitOnDot id.data).length = (scopeSplit scope).length + 1 &&
    leadEq (scopeSplit scope) (splitOnDot id.data)) = true ↔ _
  rw [Bool.and_eq_true, decide_eq_true_eq, hsc, leadEq_take]

theorem getModules_filter : ∀ (reg : Registry) (scope : String),
    (reg.filter fun p => modMatches (scopeSplit scope) p.1) =
      (reg.filter fun p => decide (specScopeMatch scope p.1)) := by
  intro reg scope
  apply List.filter_congr
  intro p _
  have hiff := modMatches_iff scope p.1
  by_cases h : specScopeMatch scope p.1
  · rw [hiff.mpr h, decide_eq_true h]
  · have h2 : modMatches (scopeSplit scope) p.1 = false :=
      Bool.eq_false_iff.mpr fun ht => h (hiff.mp ht)
    rw [h2, decide_eq_false h]

/-- The registry of the claim's example. -/
def c1reg : Registry :=
  [("a", { ID := "a" }), ("a.b", { ID := "a.b" }), ("a.b.c", { ID := "a.b.c" }),
   ("a.b.cd", { ID := "a.b.cd" }), ("a.c", { ID := "a.c" }), ("a.d", { ID := "a.d" }),
   ("b", { ID := "b" })]

/-- C1: For every registry and scope, `GetModules` returns exactly the
registered entries whose identifier has exactly one more label than the
scope with leading labels equal to the scope's labels (a permutation of
that filter of the registry), sorted ascending by identifier; on the
claim's example registry, scope "a" yields [a.b, a.c, a.d] and scope ""
yields [a, b]. -/
theorem getModules_exact_scope_sorted :
    (∀ (reg : Registry) (scope : String),
      ((GetModules reg scope).Pairwise fun a b => strLt b.ID.data a.ID.data = false) ∧
      (GetModules reg scope).Perm
        ((reg.filter fun p => decide (specScopeMatch scope p.1)).map fun p => p.2)) ∧
    (GetModules c1reg "a").map ModuleInfo.ID = ["a.b", "a.c", "a.d"] ∧
    (GetModules c1reg "").map ModuleInfo.ID = ["a", "b"] := by
  refine ⟨fun reg scope => ⟨?_, ?_⟩, by decide, by decide⟩
  · exact pairwise_sortByID _
  · show (sortByID ((reg.filter fun p => modMatches (scopeSplit scope) p.1).map
      fun p => p.2)).Perm _
    rw [getModules_filter reg scope]
    exact sortByID_perm _

theorem duplicate_registration_panics_witness :
    RegisterModule [("x", { ID := "x", New := some (some { inst := { tag := "one" } }) })]
        { ID := "x", New := some (some { inst := { tag := "two" } }) } =
      (some ("module already registered: " ++ "x"),
       [("x", { ID := "x", New := some (some { inst := { tag := "one" } }) })]) :=
  duplicate_registration_panics _ _ _ (by decide) (by decide) (by decide) rfl (by decide)

/-! ## C7: which field shapes produce the "unrecognized type" error -/

/-- C7 counterexample: a field of slice kind whose element type is not one of
the recognized raw-module shapes (here a `[]int`) is not an error at all —
`LoadModule` succeeds and returns the untouched nil result, contradicting the
claim that every unsupported shape yields the "unrecognized type for module"
resolution error. -/
theorem slice_unknown_elem_type_succeeds :
    LoadModule [] "ns" "k" (.sliceOther "[]int") St.empty =
      (ROut.ok LoadResult.nilResult, St.empty) := by
  rfl

/-- C7 amended: the "unrecognized type for module" resolution error is
produced exactly by the default arm of the shape switch — fields of
non-slice, non-map kind; a slice-kinded field whose element type is not
recognized instead succeeds with no result and no error. -/
theorem unrecognized_type_error_scope :
    ∀ (reg : Registry) (ns ik ty : String) (st : St),
      LoadModule reg ns ik (.nonSliceNonMap ty) st =
        (.err ("unrecognized type for module: " ++ ty), st) ∧
      LoadModule reg ns ik (.sliceOther ty) st = (.ok .nilResult, st) := by
  intro reg ns ik ty st
  exact ⟨rfl, rfl⟩

/-! ## C3: the cancellation cascade -/

theorem cancelRow_eq : ∀ l : List Instance,
    cancelRow l = (l.filter fun i => i.cleanup.isSome).map fun i => Ev.cleanupCall i.tag := by
  intro l
  induction l with
  | nil => rfl
  | cons i rest ih =>
    unfold cancelRow
    cases hc : i.cleanup with
    | none => simp [List.filter_cons, hc, ih]
    | some r => simp [List.filter_cons, hc, ih]

/-- C3 amended: canceling a Context runs the parent scope's cleanup callbacks
first, then calls `Cleanup` on every `CleanerUpper` instance recorded in the
Context's instance map — grouped by module identifier in the map's iteration
order, within each identifier in creation order; the event sequence is the
same whatever the individual cleanup results are (a failing cleanup is
logged, never aborts the cascade), so the full cascade always completes. -/
theorem cancel_cascade_amended :
    ∀ (pf : List String) (m : List (String × List Instance)),
      wrappedCancel pf m =
        pf.map Ev.cleanupFuncCall ++
          m.flatMap fun p =>
            (p.2.filter fun i => i.cleanup.isSome).map fun i => Ev.cleanupCall i.tag := by
  intro pf m
  unfold wrappedCancel
  congr 1
  induction m with
  | nil => rfl
  | cons p rest ih =>
    unfold cancelInstances
    rw [List.flatMap_cons, cancelRow_eq, ih]

/-- The instances of the C3 counterexample: `x` and `z` are CleanerUppers
loaded under id "b", `y` under id "a"; `w` is a CleanerUpper whose
validation fails. -/
def c3x : Instance := { tag := "x", cleanup := some none }

def c3y : Instance := { tag := "y", cleanup := some none }

def c3w : Instance := { tag := "w", validate := some (some "bad"), cleanup := some none }

def c3reg : Registry :=
  [("b", { ID := "b", New := some (some { inst := c3x }) }),
   ("a", { ID := "a", New := some (some { inst := c3y }) })]

def c3vreg : Registry := [("v", { ID := "v", New := some (some { inst := c3w }) })]

/-- The context state after loading "b", then "a", then "b" again. -/
def c3st : St :=
  (LoadModuleByID c3reg "b" RawMsg.empty
    (LoadModuleByID c3reg "a" RawMsg.empty
      (LoadModuleByID c3reg "b" RawMsg.empty St.empty).2).2).2

/-- C3 counterexample.  First: instances were created in the order x, y, x
(the lineage), but cancellation cleans them up grouped by module id —
x, x, y — not in creation order.  Second: the CleanerUpper `w`, created by
the context (it is in the lineage) but failing validation, gets no cleanup
call at cancellation at all (it was cleaned up during the failed load
instead).  Both contradict "invokes Cleanup on every CleanerUpper instance
that this Context created, in the order those instances were created". -/
theorem cancel_not_creation_order :
    (c3st.ancestry.map Instance.tag = ["x", "y", "x"] ∧
     wrappedCancel [] c3st.moduleInstances =
       [Ev.cleanupCall "x", Ev.cleanupCall "x", Ev.cleanupCall "y"]) ∧
    ((LoadModuleByID c3vreg "v" RawMsg.empty St.empty).1 =
       ROut.err "v: invalid configuration: bad" ∧
     (LoadModuleByID c3vreg "v" RawMsg.empty St.empty).2.ancestry.map Instance.tag = ["w"] ∧
     wrappedCancel [] (LoadModuleByID c3vreg "v" RawMsg.empty St.empty).2.moduleInstances =
       []) := by
  exact ⟨⟨by decide, by decide⟩, by decide, by decide, by decide⟩

/-! ## C2: cleanup on provisioning failure in `LoadModuleByID` -/

/-- C2: when a loaded module's `Provision` fails, `LoadModuleByID` invokes
`Cleanup` exactly once (and never when the instance is no CleanerUpper)
before returning; a cleanup error is appended to — never replaces — the
provisioning error; and the returned error is wrapped with the module
identifier as `provision <id>: <error>`. -/
theorem provision_failure_cleanup_once :
    ∀ (reg : Registry) (id : String) (raw : RawMsg) (st : St)
      (mi : ModuleInfo) (mv : ModVal) (v : Instance) (pe : String),
      findMod reg id = some mi →
      mi.New = some (some mv) →
      constructedVal mv = v →
      (raw = RawMsg.empty ∨ StrictUnmarshalJSON v.fields raw = DecodeOut.ok) →
      v.provision = some (some pe) →
      (((LoadModuleByID reg id raw st).2.trace.drop st.trace.length).count
          (Ev.cleanupCall v.tag) = if v.cleanup.isSome then 1 else 0) ∧
      (v.cleanup = none →
        (LoadModuleByID reg id raw st).1 = .err ("provision " ++ mi.ID ++ ": " ++ pe)) ∧
      (v.cleanup = some none →
        (LoadModuleByID reg id raw st).1 = .err ("provision " ++ mi.ID ++ ": " ++ pe)) ∧
      (∀ e2, v.cleanup = some (some e2) →
        (LoadModuleByID reg id raw st).1 =
          .err ("provision " ++ mi.ID ++ ": " ++ (pe ++ "; additionally, cleanup: " ++ e2))) := by
  intro reg id raw st mi mv v pe hfind hnew hcv hdec hprov
  have hdec2 : (if raw = RawMsg.empty then Except.ok (some v)
      else match StrictUnmarshalJSON v.fields raw with
        | DecodeOut.fail e => Except.error ("decoding module config: " ++ mi.ID ++ ": " ++ e)
        | DecodeOut.toNil => (Except.ok none : Except String (Option Instance))
        | DecodeOut.ok => Except.ok (some v)) = Except.ok (some v) := by
    rcases hdec with hre | hok
    · rw [if_pos hre]
    · by_cases hre : raw = RawMsg.empty
      · rw [hre] at hok; simp [StrictUnmarshalJSON] at hok
      · rw [if_neg hre, hok]
  by_cases happ : v.isApp <;>
    rcases hcu : v.cleanup with _ | cres
  case pos.none =>
    simp [LoadModuleByID, hfind, hnew, hcv, hdec2, hprov, happ, hcu, cleanupOnFail,
      List.drop_left, List.count_cons]
  case pos.some =>
    rcases cres with _ | e2 <;>
      simp [LoadModuleByID, hfind, hnew, hcv, hdec2, hprov, happ, hcu, cleanupOnFail,
        List.drop_left, List.count_cons]
  case neg.none =>
    simp [LoadModuleByID, hfind, hnew, hcv, hdec2, hprov, happ, hcu, cleanupOnFail,
      List.drop_left, List.count_cons]
  case neg.some =>
    rcases cres with _ | e2 <;>
      simp [LoadModuleByID, hfind, hnew, hcv, hdec2, hprov, happ, hcu, cleanupOnFail,
        List.drop_left, List.count_cons]

def c2v : Instance := { tag := "t", provision := some (some "boom"), cleanup := some (some "cboom") }

def c2reg : Registry := [("m", { ID := "m", New := some (some { inst := c2v }) })]

theorem provision_failure_cleanup_once_witness :
    (((LoadModuleByID c2reg "m" RawMsg.empty St.empty).2.trace.drop St.empty.trace.length).count
        (Ev.cleanupCall c2v.tag) = if c2v.cleanup.isSome then 1 else 0) ∧
    (LoadModuleByID c2reg "m" RawMsg.empty St.empty).1 =
      .err ("provision " ++ "m" ++ ": " ++ ("boom" ++ "; additionally, cleanup: " ++ "cboom")) :=
  have h := provision_failure_cleanup_once c2reg "m" RawMsg.empty St.empty
    { ID := "m", New := some (some { inst := c2v }) } { inst := c2v } c2v "boom"
    (by decide) rfl rfl (Or.inl rfl) (by decide)
  ⟨h.1, h.2.2.2 "cboom" (by decide)⟩

/-! ## C6: error wrapping in the sequence-of-sequences shape -/

theorem loadInlineSeq_head_fail (reg : Registry) (ik ns : String) (i : Nat) (r : RawMsg)
    (rest : List RawMsg) (st st2 : St) (e : String)
    (h : loadModuleInline reg ik ns r st = (.err e, st2)) :
    loadInlineSeq reg ik ns i (r :: rest) st =
      (.err ("position " ++ toString i ++ ": " ++ e), st2) := by
  unfold loadInlineSeq
  rw [h]

theorem loadInlineSeq_append_ok (reg : Registry) (ik ns : String) :
    ∀ (xs : List RawMsg) (i : Nat) (st : St) (vs : List Instance) (st1 : St)
      (ys : List RawMsg) (e : String) (st2 : St),
      loadInlineSeq reg ik ns i xs st = (.ok vs, st1) →
      loadInlineSeq reg ik ns (i + xs.length) ys st1 = (.err e, st2) →
      loadInlineSeq reg ik ns i (xs ++ ys) st = (.err e, st2) := by
  intro xs
  induction xs with
  | nil =>
    intro i st vs st1 ys e st2 h1 h2
    unfold loadInlineSeq at h1
    rw [Prod.mk.injEq] at h1
    obtain ⟨_, hst⟩ := h1
    subst hst
    simpa using h2
  | cons r rs ih =>
    intro i st vs st1 ys e st2 h1 h2
    rw [List.cons_append]
    unfold loadInlineSeq at h1 ⊢
    cases hm : loadModuleInline reg ik ns r st with
    | mk out stm =>
      rw [hm] at h1
      cases out with
      | err e3 => simp at h1
      | panicked m => simp at h1
      | ok v =>
        simp only [] at h1 ⊢
        cases hrec : loadInlineSeq reg ik ns (i + 1) rs stm with
        | mk out2 str2 =>
          rw [hrec] at h1
          cases out2 with
          | err e3 => simp at h1
          | panicked m => simp at h1
          | ok vs2 =>
            simp only [Prod.mk.injEq, ROut.ok.injEq] at h1
            obtain ⟨_, hst1⟩ := h1
            subst hst1
            have h2s : loadInlineSeq reg ik ns (i + 1 + rs.length) ys str2 = (.err e, st2) := by
              have harith : i + 1 + rs.length = i + (r :: rs).length := by
                simp [List.length_cons]; omega
              rw [harith]
              exact h2
            have hresult := ih (i + 1) stm vs2 str2 ys e st2 hrec h2s
            rw [hresult]

theorem loadSeqSeq_head_fail (reg : Registry) (ik ns : String) (row : List RawMsg)
    (rest : List (List RawMsg)) (st st2 : St) (e : String)
    (h : loadInlineSeq reg ik ns 0 row st = (.err e, st2)) :
    loadSeqSeq reg ik ns (row :: rest) st = (.err e, st2) := by
  unfold loadSeqSeq
  rw [h]

theorem loadSeqSeq_append_ok (reg : Registry) (ik ns : String) :
    ∀ (rows : List (List RawMsg)) (st : St) (vss : List (List Instance)) (st1 : St)
      (rows2 : List (List RawMsg)) (e : String) (st2 : St),
      loadSeqSeq reg ik ns rows st = (.ok vss, st1) →
      loadSeqSeq reg ik ns rows2 st1 = (.err e, st2) →
      loadSeqSeq reg ik ns (rows ++ rows2) st = (.err e, st2) := by
  intro rows
  induction rows with
  | nil =>
    intro st vss st1 rows2 e st2 h1 h2
    unfold loadSeqSeq at h1
    rw [Prod.mk.injEq] at h1
    obtain ⟨_, hst⟩ := h1
    subst hst
    simpa using h2
  | cons row rs ih =>
    intro st vss st1 rows2 e st2 h1 h2
    rw [List.cons_append]
    unfold loadSeqSeq at h1 ⊢
    cases hm : loadInlineSeq reg ik ns 0 row st with
    | mk out stm =>
      rw [hm] at h1
      cases out with
      | err e3 => simp at h1
      | panicked m => simp at h1
      | ok vs =>
        simp only [] at h1 ⊢
        cases hrec : loadSeqSeq reg ik ns rs stm with
        | mk out2 str2 =>
          rw [hrec] at h1
          cases out2 with
          | err e3 => simp at h1
          | panicked m => simp at h1
          | ok vss2 =>
            simp only [Prod.mk.injEq, ROut.ok.injEq] at h1
            obtain ⟨_, hst1⟩ := h1
            subst hst1
            have hresult := ih stm vss2 str2 rows2 e st2 hrec h2
            rw [hresult]

/-- C6 amended: when loading a `[][]json.RawMessage` field fails at inner
index `j` of some outer element, the returned error is wrapped with the
inner index only — `position j: <error>` — and propagates through the outer
loop unchanged, so the outer index `i` is not part of the message. -/
theorem seqseq_error_reports_inner_index_only :
    ∀ (reg : Registry) (ik ns : String) (goodRows : List (List RawMsg))
      (okPart : List RawMsg) (r : RawMsg) (restIn : List RawMsg)
      (restRows : List (List RawMsg)) (st : St) (vss : List (List Instance)) (st1 : St)
      (vs : List Instance) (st2 : St) (e : String) (st3 : St),
      ik ≠ "" →
      loadSeqSeq reg ik ns goodRows st = (.ok vss, st1) →
      loadInlineSeq reg ik ns 0 okPart st1 = (.ok vs, st2) →
      loadModuleInline reg ik ns r st2 = (.err e, st3) →
      LoadModule reg ns ik (.seqSeqRaw (goodRows ++ (okPart ++ r :: restIn) :: restRows)) st =
        (.err ("position " ++ toString okPart.length ++ ": " ++ e), st3) := by
  intro reg ik ns goodRows okPart r restIn restRows st vss st1 vs st2 e st3
    hik hgood hok hmod
  have hfail := loadInlineSeq_head_fail reg ik ns (0 + okPart.length) r restIn st2 st3 e hmod
  have hrow := loadInlineSeq_append_ok reg ik ns okPart 0 st1 vs st2 (r :: restIn)
    ("position " ++ toString (0 + okPart.length) ++ ": " ++ e) st3 hok hfail
  rw [Nat.zero_add] at hrow
  have hrows := loadSeqSeq_append_ok reg ik ns goodRows st vss st1
    ((okPart ++ r :: restIn) :: restRows)
    ("position " ++ toString okPart.length ++ ": " ++ e) st3 hgood
    (loadSeqSeq_head_fail reg ik ns (okPart ++ r :: restIn) restRows st1 st3 _ hrow)
  unfold LoadModule
  simp only []
  rw [if_neg hik, hrows]

/-- Whether the character list begins with the given segment. -/
def startsWithSeg : List Char → List Char → Bool
  | _, [] => true
  | [], _ :: _ => false
  | c :: cs, d :: ds => c = d && startsWithSeg cs ds

/-- Number of (possibly overlapping) occurrences of a segment in a string's
characters. -/
def occurrences : List Char → List Char → Nat
  | [], _ => 0
  | c :: cs, seg => (if startsWithSeg (c :: cs) seg then 1 else 0) + occurrences cs seg

def c6plain : Instance := { tag := "g" }

def c6reg : Registry := [("ns.good", { ID := "ns.good", New := some (some { inst := c6plain }) })]

def c6okRaw : RawMsg := RawMsg.obj [("h", JVal.str "good")]

def c6badRaw : RawMsg := RawMsg.obj [("h", JVal.str "bad")]

/-- Two rows: the failing element sits at outer index 1, inner index 0. -/
def c6rows : List (List RawMsg) := [[c6okRaw], [c6badRaw]]

def c6msg : String := "position 0: loading module 'bad': unknown module: ns.bad"

/-- C6 counterexample: loading `[[ok], [bad]]` fails at outer index 1,
inner index 0, yet the returned error mentions exactly one position —
`position 0` — so it does not report two levels of indexing as the claim
states (the word "position" occurs once in the message). -/
theorem seqseq_error_missing_outer_index :
    (LoadModule c6reg "ns" "h" (.seqSeqRaw c6rows) St.empty).1 = ROut.err c6msg ∧
    occurrences c6msg.data ("position".data) = 1 :=
  ⟨by decide, by decide⟩

def c6st1 : St := (loadSeqSeq c6reg "h" "ns" [[c6okRaw]] St.empty).2

def c6st3 : St := (loadModuleInline c6reg "h" "ns" c6badRaw c6st1).2

theorem seqseq_error_reports_inner_index_only_witness :
    LoadModule c6reg "ns" "h"
        (.seqSeqRaw ([[c6okRaw]] ++ ([] ++ c6badRaw :: []) :: [])) St.empty =
      (.err ("position " ++ toString (List.length ([] : List RawMsg)) ++ ": " ++
        "loading module 'bad': unknown module: ns.bad"), c6st3) :=
  seqseq_error_reports_inner_index_only c6reg "h" "ns" [[c6okRaw]] [] c6badRaw [] []
    St.empty [[c6plain]] c6st1 [] c6st1 "loading module 'bad': unknown module: ns.bad" c6st3
    (by decide) (by decide) (by decide) (by decide)

/-! ## C8: name resolution for map-shaped fields -/

theorem cleanupOnFail_loads (v : Instance) (e : String) (st : St) :
    (cleanupOnFail v e st).2.loads = st.loads := by
  unfold cleanupOnFail
  cases hc : v.cleanup with
  | none => rfl
  | some r => cases r <;> rfl

theorem recordLoad_loads (id : String) (val : Instance) (st : St) :
    (recordLoad id val st).2.loads = st.loads := by
  unfold recordLoad
  by_cases h : val.isEventEmitter && val.isApp <;> simp [h]

theorem validateStep_loads (mi : ModuleInfo) (id : String) (val : Instance) (st : St) :
    (validateStep mi id val st).2.loads = st.loads := by
  unfold validateStep
  cases hv : val.validate with
  | none => rw [recordLoad_loads]
  | some vr =>
    cases vr with
    | none => rw [recordLoad_loads]
    | some e =>
      by_cases happ : val.isApp <;> simp [happ, cleanupOnFail_loads]

theorem loadModuleByID_loads (reg : Registry) (id : String) (raw : RawMsg) (st : St) :
    (LoadModuleByID reg id raw st).2.loads = st.loads ++ [id] := by
  unfold LoadModuleByID
  cases hf : findMod reg id with
  | none => rfl
  | some mi =>
    cases hn : mi.New with
    | none => simp [hn]
    | some newFn =>
      cases newFn with
      | none => simp [hn]
      | some mv =>
        simp only [hn]
        by_cases hre : raw = RawMsg.empty
        · simp only [hre, if_pos rfl]
          by_cases happ : (constructedVal mv).isApp <;>
            cases hp : (constructedVal mv).provision with
          | none =>
            simp [happ, hp, validateStep_loads]
          | some pr =>
            cases pr <;>
              simp [happ, hp, validateStep_loads, cleanupOnFail_loads]
        · simp only [if_neg hre]
          cases hs : StrictUnmarshalJSON (constructedVal mv).fields raw with
          | fail e => simp
          | toNil => simp
          | ok =>
            simp only []
            by_cases happ : (constructedVal mv).isApp <;>
              cases hp : (constructedVal mv).provision with
            | none =>
              simp [happ, hp, validateStep_loads]
            | some pr =>
              cases pr <;>
                simp [happ, hp, validateStep_loads, cleanupOnFail_loads]

theorem loadModuleMap_ok_loads (reg : Registry) (ns : String) :
    ∀ (entries : List (String × RawMsg)) (st : St) (vs : List (String × Instance)) (st2 : St),
      loadModuleMap reg ns entries st = (.ok vs, st2) →
      st2.loads = st.loads ++ entries.map (fun p => if ns = "" then p.1 else ns ++ "." ++ p.1) := by
  intro entries
  induction entries with
  | nil =>
    intro st vs st2 h
    unfold loadModuleMap at h
    rw [Prod.mk.injEq] at h
    obtain ⟨_, hst⟩ := h
    subst hst
    simp
  | cons p rest ih =>
    obtain ⟨k, v⟩ := p
    intro st vs st2 h
    unfold loadModuleMap at h
    simp only [] at h
    cases hm : LoadModuleByID reg (if ns = "" then k else ns ++ "." ++ k) v st with
    | mk out stm =>
      rw [hm] at h
      cases out with
      | err e => simp at h
      | panicked m => simp at h
      | ok val =>
        simp only [] at h
        cases hrec : loadModuleMap reg ns rest stm with
        | mk out2 str2 =>
          rw [hrec] at h
          cases out2 with
          | err e => simp at h
          | panicked m => simp at h
          | ok all =>
            simp only [Prod.mk.injEq, ROut.ok.injEq] at h
            obtain ⟨_, hst2⟩ := h
            subst hst2
            have h1 : stm.loads = st.loads ++ [if ns = "" then k else ns ++ "." ++ k] := by
              have h0 := loadModuleByID_loads reg (if ns = "" then k else ns ++ "." ++ k) v st
              rw [hm] at h0
              exact h0
            have h2 := ih stm all str2 hrec
            rw [h2, h1]
            simp

theorem loadModuleInline_ok (reg : Registry) (ik ns : String) (raw : RawMsg) (st : St)
    (v : Instance) (st2 : St) (h : loadModuleInline reg ik ns raw st = (.ok v, st2)) :
    ∃ nm raw2, getModuleNameInline ik raw = Except.ok (nm, raw2) ∧
      st2.loads = st.loads ++ [ns ++ "." ++ nm] := by
  unfold loadModuleInline at h
  cases hg : getModuleNameInline ik raw with
  | error e => rw [hg] at h; simp at h
  | ok pr =>
    obtain ⟨nm, raw2⟩ := pr
    rw [hg] at h
    simp only [] at h
    cases hl : LoadModuleByID reg (ns ++ "." ++ nm) raw2 st with
    | mk out stl =>
      rw [hl] at h
      cases out with
      | err e => simp at h
      | panicked m => simp at h
      | ok v2 =>
        simp only [Prod.mk.injEq, ROut.ok.injEq] at h
        obtain ⟨_, hst⟩ := h
        subst hst
        refine ⟨nm, raw2, rfl, ?_⟩
        have h0 := loadModuleByID_loads reg (ns ++ "." ++ nm) raw2 st
        rw [hl] at h0
        exact h0

theorem loadModulesFromRegularMap_ok_loads (reg : Registry) (ns ik : String) :
    ∀ (entries : List (String × RawMsg)) (st : St) (vs : List (String × Instance)) (st2 : St),
      loadModulesFromRegularMap reg ns ik entries st = (.ok vs, st2) →
      ∃ names : List String,
        List.Forall₂ (fun p nm => ∃ r2, getModuleNameInline ik p.2 = Except.ok (nm, r2))
          entries names ∧
        st2.loads = st.loads ++ names.map (fun nm => ns ++ "." ++ nm) := by
  intro entries
  induction entries with
  | nil =>
    intro st vs st2 h
    unfold loadModulesFromRegularMap at h
    rw [Prod.mk.injEq] at h
    obtain ⟨_, hst⟩ := h
    subst hst
    exact ⟨[], List.Forall₂.nil, by simp⟩
  | cons p rest ih =>
    obtain ⟨k, v⟩ := p
    intro st vs st2 h
    unfold loadModulesFromRegularMap at h
    cases hm : loadModuleInline reg ik ns v st with
    | mk out stm =>
      rw [hm] at h
      cases out with
      | err e => simp at h
      | panicked m => simp at h
      | ok mod =>
        simp only [] at h
        cases hrec : loadModulesFromRegularMap reg ns ik rest stm with
        | mk out2 str2 =>
          rw [hrec] at h
          cases out2 with
          | err e => simp at h
          | panicked m => simp at h
          | ok mods =>
            simp only [Prod.mk.injEq, ROut.ok.injEq] at h
            obtain ⟨_, hst2⟩ := h
            subst hst2
            obtain ⟨nm, raw2, hg, hld⟩ := loadModuleInline_ok reg ik ns v st mod stm hm
            obtain ⟨names, hfa, hlds⟩ := ih stm mods str2 hrec
            refine ⟨nm :: names, List.Forall₂.cons ⟨raw2, hg⟩ hfa, ?_⟩
            rw [hlds, hld]
            simp

/-- C8: dispatching a map-shaped field with no inline key reads the map keys
as module names — resolved as `namespace + "." + key`, or the bare key when
the namespace is empty — while with an inline key set the map keys are
opaque and each module's name is extracted from inside the corresponding
object via the inline key (the resolved ids depend only on the extracted
names).  The recorded `loads` are the fully qualified ids passed to
`LoadModuleByID`, in order. -/
theorem map_field_name_resolution :
    (∀ (reg : Registry) (ns : String) (entries : List (String × RawMsg)) (st : St),
      loadModulesFromSomeMap reg ns "" (.moduleMap entries) st =
        loadModuleMap reg ns entries st) ∧
    (∀ (reg : Registry) (ns ik : String) (entries : List (String × RawMsg)) (st : St),
      ik ≠ "" →
      loadModulesFromSomeMap reg ns ik (.moduleMap entries) st =
        loadModulesFromRegularMap reg ns ik entries st) ∧
    (∀ (reg : Registry) (ns : String) (entries : List (String × RawMsg)) (st : St)
      (vs : List (String × Instance)) (st2 : St),
      loadModuleMap reg ns entries st = (.ok vs, st2) →
      st2.loads = st.loads ++ entries.map fun p => if ns = "" then p.1 else ns ++ "." ++ p.1) ∧
    (∀ (reg : Registry) (ns ik : String) (entries : List (String × RawMsg)) (st : St)
      (vs : List (String × Instance)) (st2 : St),
      loadModulesFromRegularMap reg ns ik entries st = (.ok vs, st2) →
      ∃ names : List String,
        List.Forall₂ (fun p nm => ∃ r2, getModuleNameInline ik p.2 = Except.ok (nm, r2))
          entries names ∧
        st2.loads = st.loads ++ names.map fun nm => ns ++ "." ++ nm) := by
  refine ⟨?_, ?_, ?_, ?_⟩
  · intro reg ns entries st
    rfl
  · intro reg ns ik entries st hik
    unfold loadModulesFromSomeMap
    rw [if_neg hik]
  · intro reg ns entries st vs st2 h
    exact loadModuleMap_ok_loads reg ns entries st vs st2 h
  · intro reg ns ik entries st vs st2 h
    exact loadModulesFromRegularMap_ok_loads reg ns ik entries st vs st2 h

def c8i1 : Instance := { tag := "i1" }

def c8i2 : Instance := { tag := "i2" }

def c8reg : Registry :=
  [("ns.k1", { ID := "ns.k1", New := some (some { inst := c8i1 }) }),
   ("ns.k2", { ID := "ns.k2", New := some (some { inst := c8i2 }) }),
   ("ns.x", { ID := "ns.x", New := some (some { inst := c8i1 }) })]

def c8entries : List (String × RawMsg) := [("k1", RawMsg.empty), ("k2", RawMsg.empty)]

def c8inlineEntries : List (String × RawMsg) := [("route1", RawMsg.obj [("h", JVal.str "x")])]

def c8st2 : St := (loadModuleMap c8reg "ns" c8entries St.empty).2

def c8st3 : St := (loadModulesFromRegularMap c8reg "ns" "h" c8inlineEntries St.empty).2

theorem map_field_name_resolution_witness :
    (c8st2.loads = St.empty.loads ++
      c8entries.map fun p => if "ns" = "" then p.1 else "ns" ++ "." ++ p.1) ∧
    (∃ names : List String,
      List.Forall₂ (fun (p : String × RawMsg) nm =>
          ∃ r2, getModuleNameInline "h" p.2 = Except.ok (nm, r2))
        c8inlineEntries names ∧
      c8st3.loads = St.empty.loads ++ names.map fun nm => "ns" ++ "." ++ nm) :=
  ⟨map_field_name_resolution.2.2.1 c8reg "ns" c8entries St.empty
      [("k1", c8i1), ("k2", c8i2)] c8st2 (by decide),
   map_field_name_resolution.2.2.2 c8reg "ns" "h" c8inlineEntries St.empty
      [("route1", c8i1)] c8st3 (by decide)⟩

end Uni
